import Mathlib

/-!
Shallow embedding of `converter_p3.py` (JUnit / Google Test report to Sonar
generic test report converter) and verification of the frozen claims about it.

Modelling conventions:
* XML trees (`lxml.etree` elements) are modelled by `XElem`; `elem.get(attr)`
  is attribute lookup returning `Option String`, `elem.text` is `Option String`.
* Python dicts are modelled as association lists in insertion order, with
  overwrite-on-existing-key semantics (`pyDictSet`) and in-place value mutation
  (`pyDictModify`).
* Python `float(s)` on a plain decimal string is modelled faithfully as
  IEEE-754 binary64: the exact decimal value is rounded to the nearest
  representable double (ties to even, `roundFin`), overflow yields infinity,
  and `int(x)` truncates a finite double toward zero.  The whole duration
  expression `str(int(float(t) * 1000))` is `pyDurStr`, including the second
  rounding of the product `float(t) * 1000`.
* Exceptions are modelled by `Except String`; the text of a diagnostic message
  only mirrors the source format strings, its exact wording is not load-bearing.
* Directory walking and report-file-name pattern matching (`os.walk` plus
  `re.search` on file names) are treated as the external collaborator the spec
  describes: the functions below receive the list of matching files directly,
  in walk order.
-/

set_option exponentiation.threshold 1200
set_option maxRecDepth 400000

namespace SonarConv

/-! ## Python dictionaries as insertion-ordered association lists -/

/-- Lookup in a Python dict (`d[k]` / `k in d`). -/
def pyDictFind? {α β : Type} [DecidableEq α] : List (α × β) → α → Option β
  | [], _ => none
  | p :: rest, k => if p.1 = k then some p.2 else pyDictFind? rest k

/-- Assignment `d[k] = v`: overwrite if the key exists, append otherwise. -/
def pyDictSet {α β : Type} [DecidableEq α] : List (α × β) → α → β → List (α × β)
  | [], k, v => [(k, v)]
  | p :: rest, k, v => if p.1 = k then (k, v) :: rest else p :: pyDictSet rest k v

/-- In-place mutation of the value object stored under key `k`
(models `d[k].method(...)` on a dict that owns its values). -/
def pyDictModify {α β : Type} [DecidableEq α] (m : List (α × β)) (k : α) (f : β → β) :
    List (α × β) :=
  m.map (fun p => if p.1 = k then (p.1, f p.2) else p)

/-- The keys of a dict, in insertion order. -/
def dictKeys {α β : Type} (m : List (α × β)) : List α := m.map (fun p => p.1)

/-! ## XML element model -/

/-- One parsed XML element (`lxml.etree._Element`). -/
structure XElem where
  tag : String
  attrs : List (String × String)
  text : Option String
  children : List XElem

/-- `elem.get(name)`: attribute lookup, `None` when absent. -/
def XElem.get (e : XElem) (a : String) : Option String :=
  pyDictFind? e.attrs a

/-! ## IEEE-754 binary64 model of Python `float` / `int` / `str` -/

/-- A finite binary64 value, as the exact number `m * 2 ^ e`.  The
significand is not kept normalised; only the denoted value matters. -/
structure Float64 where
  m : Int
  e : Int
deriving DecidableEq

/-- Whether `n / d ≥ 2 ^ x` (for `n ≥ 0`, `d ≥ 1`). -/
def qGePow2 (n d : Nat) (x : Int) : Bool :=
  if 0 ≤ x then d * 2 ^ x.toNat ≤ n else d ≤ n * 2 ^ (-x).toNat

/-- Fuel-bounded binary search maintaining `2 ^ lo ≤ n / d < 2 ^ hi`. -/
def ilogSearch : Nat → Nat → Nat → Int → Int → Int
  | 0, _, _, lo, _ => lo
  | fuel + 1, n, d, lo, hi =>
    if hi ≤ lo + 1 then lo
    else
      let mid := (lo + hi) / 2
      if qGePow2 n d mid then ilogSearch fuel n d mid hi
      else ilogSearch fuel n d lo mid

/-- `⌊log2 (n / d)⌋` for positive rationals in the binary64 range
(callers guarantee `2 ^ (-1076) ≤ n / d < 2 ^ 1025`; 15 bisection steps
settle a range of 2101 exponents). -/
def ilogQ (n d : Nat) : Int := ilogSearch 15 n d (-1076) 1025

/-- Round the nonnegative rational `n / d` (with `d ≥ 1`) to the nearest
binary64 value, ties to even, honouring the subnormal range; `none` when the
value rounds to infinity (at or above `(2 ^ 54 - 1) * 2 ^ 970`). -/
def roundFin (n d : Nat) : Option (Nat × Int) :=
  if n = 0 then some (0, 0)
  else if (2 ^ 54 - 1) * 2 ^ 970 * d ≤ n then none
  else
    let e : Int :=
      if qGePow2 n d (-1076) then max (ilogQ n d - 52) (-1074) else -1074
    let nd : Nat × Nat :=
      if 0 ≤ e then (n, d * 2 ^ e.toNat) else (n * 2 ^ (-e).toNat, d)
    let q := nd.1 / nd.2
    let r := nd.1 % nd.2
    let m :=
      if nd.2 < 2 * r then q + 1
      else if 2 * r < nd.2 then q
      else if q % 2 = 0 then q else q + 1
    if m = 2 ^ 53 then some (2 ^ 52, e + 1) else some (m, e)

/-- A Python float: a finite double or a (signed) infinity. -/
inductive PyFloat where
  | finite (v : Float64)
  | inf (neg : Bool)
deriving DecidableEq

/-- The double that `float()` produces for the exact decimal value
`sg * n / 10 ^ p10`: nearest-even rounding, saturating to infinity. -/
def float64OfDecimal (sg : Int) (n p10 : Nat) : PyFloat :=
  match roundFin n (10 ^ p10) with
  | some me => .finite ⟨sg * me.1, me.2⟩
  | none => .inf (sg < 0)

/-- The binary64 product `v * 1000.0`: the exact product rounded back to a
double; `none` when it overflows to infinity. -/
def times1000 (v : Float64) : Option Float64 :=
  let n := v.m.natAbs * 1000
  let s : Int := if v.m < 0 then -1 else 1
  let r :=
    if 0 ≤ v.e then roundFin (n * 2 ^ v.e.toNat) 1
    else roundFin n (2 ^ (-v.e).toNat)
  r.map (fun me => ⟨s * me.1, me.2⟩)

/-- `int(x)` on a finite double: truncation toward zero. -/
def truncF64 (v : Float64) : Int :=
  if 0 ≤ v.e then v.m * 2 ^ v.e.toNat
  else Int.tdiv v.m ((2 : Int) ^ (-v.e).toNat)

def digitVal (c : Char) : Nat := c.toNat - 48

/-- Read a maximal run of decimal digits: returns (value, digit count, rest). -/
def readDigitsAux : List Char → Nat → Nat → Nat × Nat × List Char
  | [], acc, n => (acc, n, [])
  | c :: cs, acc, n =>
    if c.isDigit then readDigitsAux cs (10 * acc + digitVal c) (n + 1) else (acc, n, c :: cs)

/-- Parse a plain decimal string (optional sign, digits, optional single dot)
into sign, integer numerator and power-of-ten denominator exponent; `none`
when the string is rejected.  (The exponent / inf / nan / underscore forms
Python also accepts are outside the inputs this program meets and are
rejected here.) -/
def parseDecimal? (s : String) : Option (Int × Nat × Nat) :=
  let cs := s.data
  let sign : Int × List Char :=
    match cs with
    | '-' :: rest => (-1, rest)
    | '+' :: rest => (1, rest)
    | _ => (1, cs)
  let r1 := readDigitsAux sign.2 0 0
  match r1.2.2 with
  | [] => if r1.2.1 = 0 then none else some (sign.1, r1.1, 0)
  | '.' :: rest =>
    let r2 := readDigitsAux rest 0 0
    if r2.2.2 = [] then
      if r1.2.1 + r2.2.1 = 0 then none
      else some (sign.1, r1.1 * 10 ^ r2.2.1 + r2.1, r2.2.1)
    else none
  | _ => none

/-- `float(x)` applied to an `Optional[str]` attribute value: raises
`TypeError` on `None` and `ValueError` on a non-numeric string; a huge
decimal saturates to infinity without raising, as in CPython. -/
def pyFloat : Option String → Except String PyFloat
  | none => Except.error "TypeError: float() argument must be a string or a number, not NoneType"
  | some s =>
    match parseDecimal? s with
    | some t => Except.ok (float64OfDecimal t.1 t.2.1 t.2.2)
    | none => Except.error ("ValueError: could not convert string to float: " ++ s)

/-- `int(x * 1000)`: raises `OverflowError` when `x` is infinite or the
product overflows; otherwise truncates the rounded binary64 product toward
zero. -/
def pyIntTimes1000 : PyFloat → Except String Int
  | .inf _ => Except.error "OverflowError: cannot convert float infinity to integer"
  | .finite v =>
    match times1000 v with
    | some p => Except.ok (truncF64 p)
    | none => Except.error "OverflowError: cannot convert float infinity to integer"

/-- The whole duration expression `str(int(float(t) * 1000))` as one
fallible evaluation (it sits in a single argument position in the source,
inside the `try` block). -/
def pyDurStr (a : Option String) : Except String String :=
  (pyFloat a).bind (fun x => (pyIntTimes1000 x).map (fun i => toString i))

/-- `'{0}.{1}'.format(a, b)` renders a `None` argument as the string `None`. -/
def pyFormatOpt : Option String → String
  | some s => s
  | none => "None"

/-- Python `str.strip()` restricted to ASCII whitespace. -/
def isPySpace (c : Char) : Bool :=
  c == ' ' || c == '\t' || c == '\n' || c == '\r' || c == '\x0b' || c == '\x0c'

/-- `s.strip()`: drop leading and trailing whitespace. -/
def pyStrip (s : String) : String :=
  String.mk (((s.data.dropWhile isPySpace).reverse.dropWhile isPySpace).reverse)

/-! ## Data model of the converter (`TestMsgType`, `TestMsg`, `TestCase`,
`SonarTestExcution`) -/

/-- `TestMsgType` enum. -/
inductive TestMsgType
  | failure
  | error
  | skipped
deriving DecidableEq

/-- `test_msg_type_map`: outcome kind to serialized tag name. -/
def test_msg_type_map : TestMsgType → String
  | .skipped => "skipped"
  | .failure => "failure"
  | .error => "error"

/-- `test_msg_tag_map`: report tag name to outcome kind (`None` when the tag
is not one of the three message tags). -/
def test_msg_tag_map (tag : String) : Option TestMsgType :=
  if tag = "skipped" then some .skipped
  else if tag = "failure" then some .failure
  else if tag = "error" then some .error
  else none

/-- `str(...)` applied to a `TestMsgType` enum member. -/
def pyStrOfMsgType : TestMsgType → String
  | .failure => "TestMsgType.failure"
  | .error => "TestMsgType.error"
  | .skipped => "TestMsgType.skipped"

/-- `TestMsg`: the three private fields set by `__init__`
(`None` short / long messages are coerced to the empty string). -/
structure TestMsg where
  msgTypeField : TestMsgType
  shortMsgField : String
  longMsgField : String
deriving DecidableEq

/-- `TestMsg.__init__(msg_type, short_msg, long_msg)`. -/
def TestMsg.init (t : TestMsgType) (s l : Option String) : TestMsg :=
  ⟨t, s.getD "", l.getD ""⟩

/-- Property `msg_type`. -/
def TestMsg.msg_type (m : TestMsg) : TestMsgType := m.msgTypeField

/-- Property `short_msg`.  Faithful to source line 55: the accessor returns
`self._msg_type`, not `self._short_msg` (the copy-paste defect §9 of the
spec flags as an open question). -/
def TestMsg.short_msg (m : TestMsg) : TestMsgType := m.msgTypeField

/-- Property `long_msg`. -/
def TestMsg.long_msg (m : TestMsg) : String := m.longMsgField

/-- `TestCase`: qualified name, duration string, optional message. -/
structure TestCase where
  name : String
  duration : String
  msg : Option TestMsg
deriving DecidableEq

/-- `SonarTestExcution`: one output file group.  `file_path` is `Option`
valued because the JUnit parser constructs it from `testCase.get('file')`,
which may be `None`. -/
structure SonarTestExcution where
  file_path : Option String
  test_cases : List TestCase
deriving DecidableEq

/-- `add_test_case`: append one test case. -/
def SonarTestExcution.add_test_case (e : SonarTestExcution) (tc : TestCase) :
    SonarTestExcution :=
  { e with test_cases := e.test_cases ++ [tc] }

/-- `add_test_cases`: append a list of test cases. -/
def SonarTestExcution.add_test_cases (e : SonarTestExcution) (tcs : List TestCase) :
    SonarTestExcution :=
  { e with test_cases := e.test_cases ++ tcs }

/-! ## Serializer (`SonarTestExcutionsXmlSerializer.serialize`) -/

/-- The message sub-element: tag from `test_msg_type_map`, `message` attribute
from `str(msg.short_msg)` (which, through the defective accessor, is the
string form of the enum member), text from `msg.long_msg`. -/
def serializeMsgElem (m : TestMsg) : XElem :=
  ⟨test_msg_type_map m.msg_type, [("message", pyStrOfMsgType m.short_msg)],
    some m.long_msg, []⟩

/-- One `testCase` element with its optional message child. -/
def serializeTestCaseElem (tc : TestCase) : XElem :=
  ⟨"testCase", [("name", tc.name), ("duration", tc.duration)], none,
    match tc.msg with
    | none => []
    | some m => [serializeMsgElem m]⟩

/-- One `file` element; `lxml` raises `TypeError` when the `path` attribute
value is `None`. -/
def serializeFileElem (e : SonarTestExcution) : Except String XElem :=
  match e.file_path with
  | none => Except.error "TypeError: Argument must be bytes or unicode, got NoneType"
  | some p => Except.ok ⟨"file", [("path", p)], none, e.test_cases.map serializeTestCaseElem⟩

/-- `serialize`: the root `testExecutions` element (the final
pretty-printing to bytes is external I/O and is not modelled). -/
def serialize (tes : List SonarTestExcution) : Except String XElem :=
  (tes.mapM serializeFileElem).map
    (fun files => ⟨"testExecutions", [("version", "1")], none, files⟩)

/-! ## Report files and shared parser pieces -/

/-- One report file as seen by a parser: its path and the result of
`etree.parse` (an `error` content models malformed XML). -/
structure ReportFile where
  path : String
  content : Except String XElem

/-- The diagnostic printed by the `except` clauses of both `doParse` methods. -/
def parseDiag (p e : String) : String :=
  "Cant parse report file of " ++ p ++ ". Skip it. due to " ++ e

/-- `JUnitTestReportParser.doParseMsg`: examines only `test_case_node[0]`,
the first child, and yields a message only when its tag is one of the three
message tags. -/
def doParseMsg (tcNode : XElem) : Option TestMsg :=
  match tcNode.children with
  | [] => none
  | c :: _ =>
    match test_msg_tag_map c.tag with
    | some t => some (TestMsg.init t (c.get "message") c.text)
    | none => none

/-! ## JUnit parser -/

/-- Dict state of `JUnitTestReportParser.doParse`: keyed by the raw
`testCase.get('file')` value. -/
abbrev JDict := List (Option String × SonarTestExcution)

/-- `'{0}.{1}'.format(testCase.get('classname'), testCase.get('name'))`. -/
def junitTestcaseName (tc : XElem) : String :=
  pyFormatOpt (tc.get "classname") ++ "." ++ pyFormatOpt (tc.get "name")

/-- `tree.xpath('/testsuite/testcase')`: the document element itself must be
`testsuite`; selects its direct `testcase` children. -/
def xpathRootCases (root : XElem) : List XElem :=
  if root.tag = "testsuite" then root.children.filter (fun c => c.tag = "testcase") else []

/-- First half of the loop body: ensure the group for this key exists
(`if key not in d: d[key] = SonarTestExcution(key)`). -/
def junitEnsure (acc : JDict) (key : Option String) : JDict :=
  if (pyDictFind? acc key).isSome then acc else pyDictSet acc key ⟨key, []⟩

/-- The `for testCase in testCases` loop of `JUnitTestReportParser.doParse`.
The group is created before the `TestCase(...)` arguments are evaluated, so a
failure while evaluating the duration expression escapes the loop (second
component) with the dict built so far, including the just-ensured group. -/
def junitAux : List XElem → JDict → JDict × Option String
  | [], acc => (acc, none)
  | tc :: rest, acc =>
    let key := tc.get "file"
    let acc1 := junitEnsure acc key
    match pyDurStr (tc.get "time") with
    | .error e => (acc1, some e)
    | .ok ds =>
      junitAux rest
        (pyDictModify acc1 key
          (fun g => g.add_test_case ⟨junitTestcaseName tc, ds, doParseMsg tc⟩))

/-- `JUnitTestReportParser.doParse`: returns the dict reached when the `try`
block ends or the exception is caught, plus the diagnostics printed. -/
def JUnit_doParse (f : ReportFile) : JDict × List String :=
  match f.content with
  | .error e => ([], [parseDiag f.path e])
  | .ok root =>
    match junitAux (xpathRootCases root) [] with
    | (d, none) => (d, [])
    | (d, some e) => (d, [parseDiag f.path e])

/-- `JUnitTestReportParser.parse`.  Line 216 of the source iterates
`executionDict.iteritems()`; Python 3 dicts have no `iteritems` method, so
the loop body raises `AttributeError` on the first matching report file,
after that file's `doParse` diagnostics were printed.  With no matching
file the loop never runs and the empty `values()` view is returned. -/
def JUnit_parse (reports : List ReportFile) :
    Except String (List SonarTestExcution) × List String :=
  match reports with
  | [] => (.ok [], [])
  | f :: _ =>
    (.error "AttributeError: dict object has no attribute iteritems", (JUnit_doParse f).2)

/-! ## Google Test source index (`doParseSrcFolder`) and its regex -/

/-- A candidate source file: path and lines (as Python iterates them). -/
structure SrcFile where
  path : String
  lines : List String

/-- `Suite.Case` to source path mapping. -/
abbrev SrcIndex := List (String × String)

/-- A character matched by `.` in the pattern (anything but a newline). -/
def dotChar (c : Char) : Bool := c != '\n'

/-- All decompositions `cs = pre ++ t :: post`, ordered by increasing
length of `pre`. -/
def splitsAt (t : Char) : List Char → List (List Char × List Char)
  | [] => []
  | c :: cs =>
    let rest := (splitsAt t cs).map (fun p => (c :: p.1, p.2))
    if c == t then ([], cs) :: rest else rest

/-- Backtracking match of the tail `.*\((.+),(.+)\)` of `GTEST_RE` against
`cs`, returning the two capture groups.  Each quantifier is greedy, so the
candidate splits are tried longest-first, outer quantifier dominating. -/
def matchRest (cs : List Char) : Option (String × String) :=
  ((splitsAt '(' cs).reverse.filter (fun p => p.1.all dotChar)).findSome? (fun p =>
    ((splitsAt ',' p.2).reverse.filter
        (fun q => q.1.all dotChar && !q.1.isEmpty)).findSome? (fun q =>
      ((splitsAt ')' q.2).reverse.filter
          (fun r => r.1.all dotChar && !r.1.isEmpty)).findSome? (fun r =>
        some (String.mk q.1, String.mk r.1))))

def startsWithTEST : List Char → Bool
  | 'T' :: 'E' :: 'S' :: 'T' :: _ => true
  | _ => false

/-- `GTEST_RE.search(line)` for `GTEST_RE = re.compile('TEST.*\((.+),(.+)\)')`:
leftmost starting position whose whole-pattern match succeeds wins. -/
def gtestSearch : List Char → Option (String × String)
  | [] => none
  | c :: cs =>
    match (if startsWithTEST (c :: cs) then matchRest ((c :: cs).drop 4) else none) with
    | some r => some r
    | none => gtestSearch cs

/-- Processing one source line: on a match, record
`match.group(1).strip() + '.' + match.group(2).strip()` mapped to the file
path (overwriting any previous entry for that key). -/
def srcLineStep (fp : String) (m : SrcIndex) (line : String) : SrcIndex :=
  match gtestSearch line.data with
  | some g => pyDictSet m (pyStrip g.1 ++ "." ++ pyStrip g.2) fp
  | none => m

/-- Scan one candidate source file line by line. -/
def srcFileStep (m : SrcIndex) (f : SrcFile) : SrcIndex :=
  f.lines.foldl (srcLineStep f.path) m

/-- `GoogleTestReportParser.doParseSrcFolder` over the files the walk
yields, in walk order. -/
def doParseSrcFolder (files : List SrcFile) : SrcIndex :=
  files.foldl srcFileStep []

/-- The key a source line contributes to the index, if any. -/
def keyOfLine (line : String) : Option String :=
  (gtestSearch line.data).map (fun g => pyStrip g.1 ++ "." ++ pyStrip g.2)

/-! ## Google Test report parser -/

/-- Dict state of `GoogleTestReportParser.doParse`: keyed by the source file
name found in the index. -/
abbrev GDict := List (String × SonarTestExcution)

/-- `/testsuites/testsuite` then each suite's `testcase` children, paired
with the suite's `name` attribute, in document order. -/
def gtestCasePairs (root : XElem) : List (Option String × XElem) :=
  ((if root.tag = "testsuites"
      then root.children.filter (fun c => c.tag = "testsuite") else []).map
    (fun s => (s.children.filter (fun c => c.tag = "testcase")).map
      (fun c => (s.get "name", c)))).flatten

/-- `'{0}.{1}'.format(test_suite_name, testCase.get('name'))`. -/
def gtestName (sn : Option String) (tc : XElem) : String :=
  pyFormatOpt sn ++ "." ++ pyFormatOpt (tc.get "name")

/-- The diagnostic for a test case missing from the source index. -/
def skipDiag (n : String) : String :=
  "Could not find test case named " ++ n ++ " in source code. Skip it."

/-- Group creation inside `GoogleTestReportParser.doParse`:
`SonarTestExcution(test_file_name)` stores the (string) file name. -/
def gtestEnsure (acc : GDict) (fp : String) : GDict :=
  if (pyDictFind? acc fp).isSome then acc else pyDictSet acc fp ⟨some fp, []⟩

/-- The testcase loop of `GoogleTestReportParser.doParse`, flattened over
suites (reading a suite's `name` attribute cannot raise, so the nested loops
are equivalent to one loop over suite-name/testcase pairs).  Returns the dict
and diagnostics accumulated so far and the escaped exception, if any. -/
def gtestAux (idx : SrcIndex) :
    List (Option String × XElem) → GDict → List String → GDict × List String × Option String
  | [], acc, diags => (acc, diags, none)
  | (sn, tc) :: rest, acc, diags =>
    let n := gtestName sn tc
    match pyDictFind? idx n with
    | some fp =>
      let acc1 := gtestEnsure acc fp
      match pyDurStr (tc.get "time") with
      | .error e => (acc1, diags, some e)
      | .ok ds =>
        gtestAux idx rest
          (pyDictModify acc1 fp (fun g => g.add_test_case ⟨n, ds, doParseMsg tc⟩))
          diags
    | none => gtestAux idx rest acc (diags ++ [skipDiag n])

/-- `GoogleTestReportParser.doParse`. -/
def GTest_doParse (f : ReportFile) (idx : SrcIndex) : GDict × List String :=
  match f.content with
  | .error e => ([], [parseDiag f.path e])
  | .ok root =>
    match gtestAux idx (gtestCasePairs root) [] [] with
    | (d, diags, none) => (d, diags)
    | (d, diags, some e) => (d, diags ++ [parseDiag f.path e])

/-- The aggregation loop body of `GoogleTestReportParser.parse`: for each
key of one `doParse` result, create the group on first encounter and append
that file's test cases. -/
def aggStep (agg : GDict) (d : GDict) : GDict :=
  d.foldl
    (fun acc kv =>
      pyDictModify (gtestEnsure acc kv.1) kv.1 (fun g => g.add_test_cases kv.2.test_cases))
    agg

/-- The whole report-file loop of `GoogleTestReportParser.parse`: parse each
matching report file and merge its per-file dict into the run-wide dict. -/
def GTest_aggregate (idx : SrcIndex) (reports : List ReportFile) : GDict × List String :=
  reports.foldl
    (fun st f =>
      let pr := GTest_doParse f idx
      (aggStep st.1 pr.1, st.2 ++ pr.2))
    ([], [])

/-- `GoogleTestReportParser.parse`: build the source index, aggregate all
matching report files, return the dict values. -/
def GTest_parse (srcFiles : List SrcFile) (reports : List ReportFile) :
    List SonarTestExcution × List String :=
  let r := GTest_aggregate (doParseSrcFolder srcFiles) reports
  (r.1.map (fun p => p.2), r.2)

/-! ## `__main__` -/

/-- The parsed command line (argparse already validated `report_type` against
the two choices and enforced the four required flags). -/
structure Args where
  report_type : String
  gtest_src_folder : Option String
  gtest_src_pattern : Option String

/-- What a run does: exit early via `sys.exit`, die on an uncaught
exception, or write the serialized document to the output file. -/
inductive MainOutcome
  | exited (code : Nat)
  | crashed (msg : String)
  | wrote (doc : XElem)

/-- The message printed before the gtest configuration `sys.exit(1)`. -/
def gtestOptionsMsg : String :=
  "for gtest report, the gtest source folder and gtest src file name pattern are required."

/-- The `if __name__ == '__main__'` block, as a function of the parsed
arguments and of the matching report / source files the directory walks
would yield.  Second component: everything printed. -/
def mainRun (args : Args) (reports : List ReportFile) (srcFiles : List SrcFile) :
    MainOutcome × List String :=
  if args.report_type = "junit" then
    match JUnit_parse reports with
    | (.error e, diags) => (.crashed e, diags)
    | (.ok tes, diags) =>
      match serialize tes with
      | .ok doc => (.wrote doc, diags)
      | .error e => (.crashed e, diags)
  else if args.report_type = "gtest" then
    if args.gtest_src_folder.isNone || args.gtest_src_pattern.isNone then
      (.exited 1, [gtestOptionsMsg])
    else
      let pr := GTest_parse srcFiles reports
      match serialize pr.1 with
      | .ok doc => (.wrote doc, pr.2)
      | .error e => (.crashed e, pr.2)
  else
    match serialize [] with
    | .ok doc => (.wrote doc, [])
    | .error e => (.crashed e, [])

/-! ## Derived description functions used in theorem statements -/

/-- The test case `JUnitTestReportParser.doParse` builds for one `testcase`
element whose duration expression evaluates without an exception; the value
of the error branch is never used under that assumption. -/
def junitMkCase (tc : XElem) : TestCase :=
  ⟨junitTestcaseName tc,
    match pyDurStr (tc.get "time") with
    | .ok ds => ds
    | .error _ => "",
    doParseMsg tc⟩

/-- Which test cases key `k` collects across all report files of a run:
concatenation, in report-file order, of each file's group for `k`. -/
def collectedCases (idx : SrcIndex) (reports : List ReportFile) (k : String) :
    List TestCase :=
  (reports.map (fun f =>
    match pyDictFind? (GTest_doParse f idx).1 k with
    | some g => g.test_cases
    | none => [])).flatten

/-- Whether any report file of the run contributes key `k`. -/
def keyPresent (idx : SrcIndex) (reports : List ReportFile) (k : String) : Bool :=
  reports.any (fun f => (pyDictFind? (GTest_doParse f idx).1 k).isSome)

/-- No test case named `n` occurs anywhere in the dict. -/
def NoName (n : String) (m : GDict) : Prop :=
  ∀ k g, pyDictFind? m k = some g → ∀ c ∈ g.test_cases, c.name ≠ n

/-! ## Concrete instances used by witnesses and counterexamples -/

/-- A `testcase` element with a `failure` child carrying `message="X"` and
body text `"Y"` (the §8 round-trip scenario). -/
def msgRoundTripCase : XElem :=
  ⟨"testcase", [("name", "t1"), ("classname", "Foo"), ("file", "foo.cpp"), ("time", "0.125")],
    none, [⟨"failure", [("message", "X")], some "Y", []⟩]⟩

def msgRoundTripReport : ReportFile :=
  ⟨"r.xml", .ok ⟨"testsuite", [], none, [msgRoundTripCase]⟩⟩

/-- A report file whose XML does not parse. -/
def malformedReport : ReportFile := ⟨"bad.xml", .error "XMLSyntaxError"⟩

/-- A well-formed JUnit report with one passing test case. -/
def validJUnitReport : ReportFile :=
  ⟨"good.xml", .ok ⟨"testsuite", [], none,
    [⟨"testcase", [("name", "t1"), ("classname", "Foo"), ("file", "a.cpp"), ("time", "0.5")],
      none, []⟩]⟩⟩

/-- A Google Test report whose first test case is fine and whose second test
case has an unparsable `time` attribute. -/
def partialGtestReport : ReportFile :=
  ⟨"g.xml", .ok ⟨"testsuites", [], none,
    [⟨"testsuite", [("name", "S")], none,
      [⟨"testcase", [("name", "t1"), ("time", "0.001")], none, []⟩,
       ⟨"testcase", [("name", "t2"), ("time", "abc")], none, []⟩]⟩]⟩⟩

def partialGtestIndex : SrcIndex := [("S.t1", "a.cpp"), ("S.t2", "a.cpp")]

/-- A `testcase` element whose first child is not a message element but whose
second child is a `failure` element. -/
def laterFailureCase : XElem :=
  ⟨"testcase", [("name", "t1")], none,
    [⟨"system-out", [], some "log", []⟩, ⟨"failure", [("message", "X")], some "Y", []⟩]⟩

/-- The §8 JUnit scenario testcase and report. -/
def scenarioJUnitCase : XElem :=
  ⟨"testcase", [("name", "t1"), ("classname", "Foo"), ("file", "foo.cpp"), ("time", "0.125")],
    none, []⟩

def scenarioJUnitRoot : XElem := ⟨"testsuite", [], none, [scenarioJUnitCase]⟩

/-- A testcase whose `time` exposes the gap between binary64 truncation and
the exact floor: CPython evaluates `int(float("1.015") * 1000)` to `1014`,
while `floor(1.015 * 1000) = 1015`. -/
def floorGapCase : XElem :=
  ⟨"testcase", [("name", "t1"), ("classname", "Foo"), ("file", "foo.cpp"), ("time", "1.015")],
    none, []⟩

def floorGapRoot : XElem := ⟨"testsuite", [], none, [floorGapCase]⟩

/-- A Google Test report with one indexed and one unindexed test case. -/
def droppedCaseReport : ReportFile :=
  ⟨"d.xml", .ok ⟨"testsuites", [], none,
    [⟨"testsuite", [("name", "S")], none,
      [⟨"testcase", [("name", "t1"), ("time", "0.002")], none, []⟩,
       ⟨"testcase", [("name", "t2"), ("time", "0.003")], none, []⟩]⟩]⟩⟩

def droppedCaseIndex : SrcIndex := [("S.t1", "a.cpp")]

/-- Source tree with one matching file declaring `TEST(S, t1)`. -/
def srcFileA : SrcFile := ⟨"a.cpp", ["TEST(S, t1)", "int x;"]⟩

/-- A second source file declaring the same test, scanned later. -/
def srcFileB : SrcFile := ⟨"b.cpp", ["  TEST( S , t1 )"]⟩

/-- A source file with no test declarations. -/
def srcFileC : SrcFile := ⟨"c.cpp", ["int main() return 0;"]⟩

/-- Two gtest reports that both attribute a test to `a.cpp`. -/
def mergeReport1 : ReportFile :=
  ⟨"m1.xml", .ok ⟨"testsuites", [], none,
    [⟨"testsuite", [("name", "S")], none,
      [⟨"testcase", [("name", "t1"), ("time", "0.002")], none, []⟩]⟩]⟩⟩

def mergeReport2 : ReportFile :=
  ⟨"m2.xml", .ok ⟨"testsuites", [], none,
    [⟨"testsuite", [("name", "S")], none,
      [⟨"testcase", [("name", "t1"), ("time", "0.004")], none, []⟩]⟩]⟩⟩

end SonarConv

namespace SonarConv

/-! # Theorems

## Generic dictionary lemmas -/

theorem pyDictFind?_set_self {α β : Type} [DecidableEq α] (m : List (α × β)) (k : α) (v : β) :
    pyDictFind? (pyDictSet m k v) k = some v := by
  induction m with
  | nil => simp [pyDictSet, pyDictFind?]
  | cons p rest ih =>
    by_cases h : p.1 = k
    · simp [pyDictSet, h, pyDictFind?]
    · simp [pyDictSet, h, pyDictFind?, ih]

theorem pyDictFind?_set_ne {α β : Type} [DecidableEq α] (m : List (α × β)) (k k' : α) (v : β)
    (h : k' ≠ k) : pyDictFind? (pyDictSet m k v) k' = pyDictFind? m k' := by
  induction m with
  | nil =>
    simp only [pyDictSet, pyDictFind?]
    rw [if_neg (fun hh : k = k' => h hh.symm)]
  | cons p rest ih =>
    by_cases hp : p.1 = k
    · simp only [pyDictSet, if_pos hp, pyDictFind?]
      rw [if_neg (fun hh : k = k' => h hh.symm), if_neg (fun hh : p.1 = k' => h (hh.symm.trans hp))]
    · simp only [pyDictSet, if_neg hp, pyDictFind?]
      by_cases hk : p.1 = k'
      · rw [if_pos hk, if_pos hk]
      · rw [if_neg hk, if_neg hk, ih]

theorem pyDictFind?_modify {α β : Type} [DecidableEq α] (m : List (α × β)) (k k' : α)
    (f : β → β) :
    pyDictFind? (pyDictModify m k f) k' =
      if k' = k then (pyDictFind? m k').map f else pyDictFind? m k' := by
  induction m with
  | nil => simp [pyDictModify, pyDictFind?]
  | cons p rest ih =>
    simp only [pyDictModify, List.map_cons] at ih ⊢
    by_cases hp : p.1 = k
    · simp only [if_pos hp]
      by_cases hk : p.1 = k'
      · have hkk : k' = k := hk.symm.trans hp
        simp [pyDictFind?, hk, hkk]
      · simp [pyDictFind?, hk, ih]
    · simp only [if_neg hp]
      by_cases hk : p.1 = k'
      · have hkk : ¬ k' = k := fun hh => hp (hk.trans hh)
        simp [pyDictFind?, hk, hkk]
      · simp [pyDictFind?, hk, ih]

theorem pyDictFind?_none_of_not_mem {α β : Type} [DecidableEq α] (m : List (α × β)) (k : α)
    (h : k ∉ dictKeys m) : pyDictFind? m k = none := by
  induction m with
  | nil => rfl
  | cons p rest ih =>
    have h1 : ¬ p.1 = k := by
      intro hh
      exact h (by simp [dictKeys, hh])
    have h2 : k ∉ dictKeys rest := by
      intro hh
      exact h (by simp only [dictKeys, List.map_cons, List.mem_cons]; exact Or.inr hh)
    simp only [pyDictFind?, if_neg h1]
    exact ih h2

theorem pyDictFind?_isSome_iff_mem {α β : Type} [DecidableEq α] (m : List (α × β)) (k : α) :
    (pyDictFind? m k).isSome = true ↔ k ∈ dictKeys m := by
  induction m with
  | nil => simp [pyDictFind?, dictKeys]
  | cons p rest ih =>
    by_cases h : p.1 = k
    · simp [pyDictFind?, dictKeys, h]
    · simp only [pyDictFind?, if_neg h, dictKeys, List.map_cons, List.mem_cons]
      rw [show (List.map (fun p => p.1) rest) = dictKeys rest from rfl, ← ih]
      constructor
      · exact fun hh => Or.inr hh
      · rintro (hh | hh)
        · exact absurd hh.symm h
        · exact hh

theorem pyDictSet_of_absent {α β : Type} [DecidableEq α] (m : List (α × β)) (k : α) (v : β)
    (h : pyDictFind? m k = none) : pyDictSet m k v = m ++ [(k, v)] := by
  induction m with
  | nil => rfl
  | cons p rest ih =>
    simp only [pyDictFind?] at h
    by_cases hp : p.1 = k
    · simp [hp] at h
    · simp only [pyDictSet, if_neg hp, List.cons_append]
      rw [ih (by simpa [hp] using h)]

theorem dictKeys_modify {α β : Type} [DecidableEq α] (m : List (α × β)) (k : α) (f : β → β) :
    dictKeys (pyDictModify m k f) = dictKeys m := by
  induction m with
  | nil => rfl
  | cons p rest ih =>
    by_cases hp : p.1 = k <;> simp [pyDictModify, dictKeys, hp] <;>
      simpa [pyDictModify, dictKeys] using ih

/-! ## C1: message round trip through `TestMsg` and the serializer -/

/-- C1: the claimed round trip fails on the code.  For a parsed test case
whose element has a `failure` child with `message="X"` and body text `"Y"`,
the serialized message element keeps the body text `"Y"` but its `message`
attribute is `str(TestMsgType.failure)` — the `short_msg` accessor returns
the `_msg_type` field (source line 55), so the short message `"X"` is lost.
This theorem evaluates the parser plus serializer at that failing input. -/
theorem msg_attr_not_roundtripped :
    serialize ((JUnit_doParse msgRoundTripReport).1.map (fun p => p.2)) =
      .ok ⟨"testExecutions", [("version", "1")], none,
        [⟨"file", [("path", "foo.cpp")], none,
          [⟨"testCase", [("name", "Foo.t1"), ("duration", "125")], none,
            [⟨"failure", [("message", "TestMsgType.failure")], some "Y", []⟩]⟩]⟩]⟩
    ∧ "TestMsgType.failure" ≠ "X" := by
  exact ⟨rfl, by decide⟩

/-! ## C2: a junit run with a malformed report beside a valid one -/

/-- C2: the claimed behavior fails on the code.  With report type `junit`
and a malformed report file alongside a valid one, `doParse` prints the
diagnostic for the malformed file, but the aggregation loop then calls
`executionDict.iteritems()`, which does not exist on Python 3 dicts, so the
run dies with `AttributeError` instead of completing; no output is written
and the valid report's data is lost.  This theorem evaluates the main flow
at that failing input. -/
theorem junit_run_crashes_on_first_report :
    mainRun ⟨"junit", none, none⟩ [malformedReport, validJUnitReport] [] =
      (.crashed "AttributeError: dict object has no attribute iteritems",
        [parseDiag "bad.xml" "XMLSyntaxError"]) := rfl

/-! ## C9: missing gtest options -/

/-- C9: with report type `gtest` and either gtest option missing, the run
exits with status 1 after printing the configuration message, for every
possible content of the report and source trees — so before any scanning,
parsing or output writing. -/
theorem gtest_missing_option_exits (args : Args) (reports : List ReportFile)
    (srcFiles : List SrcFile) (hty : args.report_type = "gtest")
    (hmiss : args.gtest_src_folder = none ∨ args.gtest_src_pattern = none) :
    mainRun args reports srcFiles = (.exited 1, [gtestOptionsMsg]) := by
  unfold mainRun
  rw [hty]
  rw [if_neg (by decide), if_pos rfl]
  rcases hmiss with h | h <;> rw [h] <;> simp

/-- Witness for C9 at a concrete invocation. -/
theorem gtest_missing_option_exits_witness :
    mainRun ⟨"gtest", none, some "pat"⟩ [mergeReport1] [srcFileA] =
      (.exited 1, [gtestOptionsMsg]) :=
  gtest_missing_option_exits _ _ _ rfl (Or.inl rfl)

/-! ## C10: JUnit xpath selects only `/testsuite/testcase` -/

/-- C10: a JUnit report whose document element is not `testsuite` (for
example a `testsuites` wrapper) contributes zero test cases and produces no
diagnostic. -/
theorem junit_nontestsuite_root_ignored (p : String) (root : XElem)
    (h : ¬ root.tag = "testsuite") :
    JUnit_doParse ⟨p, .ok root⟩ = ([], []) := by
  unfold JUnit_doParse xpathRootCases
  simp [h, junitAux]

/-- Witness for C10: a `testsuites` wrapper around a `testsuite` with a
`testcase` yields nothing. -/
theorem junit_nontestsuite_root_ignored_witness :
    JUnit_doParse ⟨"w.xml", .ok ⟨"testsuites", [], none,
      [⟨"testsuite", [], none,
        [⟨"testcase", [("name", "t1"), ("classname", "Foo"), ("file", "a.cpp"),
          ("time", "0.5")], none, []⟩]⟩]⟩⟩ = ([], []) :=
  junit_nontestsuite_root_ignored "w.xml" _ (by decide)

/-! ## C7: message extraction looks only at the first child -/

/-- C7: counterexample to the claim as stated.  A `testcase` whose children
are a `system-out` element followed by a `failure` element yields no
message, although the first failure/error/skipped child exists — the code
examines only `children[0]`. -/
theorem msg_not_taken_from_later_child :
    doParseMsg laterFailureCase = none
    ∧ ∃ c ∈ laterFailureCase.children, test_msg_tag_map c.tag = some .failure := by
  exact ⟨rfl, by decide⟩

/-- C7 (amended): at most one message is extracted, and only from the first
child element: no children or a first child that is not failure/error/skipped
yields no message (even when a later child is such an element), and a first
child with such a tag yields exactly its message. -/
theorem doParseMsg_first_child_only (tc : XElem) :
    (tc.children = [] → doParseMsg tc = none)
    ∧ (∀ c cs, tc.children = c :: cs → test_msg_tag_map c.tag = none →
        doParseMsg tc = none)
    ∧ (∀ c cs t, tc.children = c :: cs → test_msg_tag_map c.tag = some t →
        doParseMsg tc = some (TestMsg.init t (c.get "message") c.text)) := by
  refine ⟨?_, ?_, ?_⟩
  · intro h
    simp [doParseMsg, h]
  · intro c cs h1 h2
    simp [doParseMsg, h1, h2]
  · intro c cs t h1 h2
    simp [doParseMsg, h1, h2]

/-! ## Unfolding lemmas for the Google Test testcase loop -/

theorem gtestAux_cons (idx : SrcIndex) (sn : Option String) (tc : XElem)
    (rest : List (Option String × XElem)) (acc : GDict) (diags : List String) :
    gtestAux idx ((sn, tc) :: rest) acc diags =
      match pyDictFind? idx (gtestName sn tc) with
      | some fp =>
        match pyDurStr (tc.get "time") with
        | .error e => (gtestEnsure acc fp, diags, some e)
        | .ok ds =>
          gtestAux idx rest
            (pyDictModify (gtestEnsure acc fp) fp
              (fun g => g.add_test_case ⟨gtestName sn tc, ds, doParseMsg tc⟩))
            diags
      | none => gtestAux idx rest acc (diags ++ [skipDiag (gtestName sn tc)]) := rfl

/-- Running the loop over `A ++ B` runs it over `A` and, unless an exception
escaped in `A`, continues over `B` from the reached state. -/
theorem gtestAux_append (idx : SrcIndex) (A B : List (Option String × XElem))
    (acc : GDict) (diags : List String) :
    gtestAux idx (A ++ B) acc diags =
      match gtestAux idx A acc diags with
      | (m, ds, none) => gtestAux idx B m ds
      | (m, ds, some e) => (m, ds, some e) := by
  induction A generalizing acc diags with
  | nil => rfl
  | cons p rest ih =>
    obtain ⟨sn, tc⟩ := p
    rw [List.cons_append, gtestAux_cons, gtestAux_cons]
    cases h : pyDictFind? idx (gtestName sn tc) with
    | some fp =>
      cases hf : pyDurStr (tc.get "time") with
      | error e => rfl
      | ok ds => exact ih _ _
    | none => exact ih _ _

/-- The initial diagnostics list is carried through unchanged in front of
whatever the loop itself prints, and affects nothing else. -/
theorem gtestAux_diags (idx : SrcIndex) (pairs : List (Option String × XElem))
    (acc : GDict) (diags : List String) :
    gtestAux idx pairs acc diags =
      ((gtestAux idx pairs acc []).1,
        diags ++ (gtestAux idx pairs acc []).2.1,
        (gtestAux idx pairs acc []).2.2) := by
  induction pairs generalizing acc diags with
  | nil => simp [gtestAux]
  | cons p rest ih =>
    obtain ⟨sn, tc⟩ := p
    rw [gtestAux_cons, gtestAux_cons]
    cases h : pyDictFind? idx (gtestName sn tc) with
    | some fp =>
      cases hf : pyDurStr (tc.get "time") with
      | error e => simp
      | ok ds => exact ih _ _
    | none =>
      rw [ih _ (diags ++ [skipDiag (gtestName sn tc)]),
        ih _ ([] ++ [skipDiag (gtestName sn tc)])]
      simp

/-! ## C3: what a failing report file contributes -/

/-- C3: counterexample to the claim as stated.  In this Google Test report
the first test case parses fine and the second has an unparsable `time`
attribute; the exception is caught and a diagnostic is printed, but the
returned dict still contains the first test case — the file's partial
results are kept, not discarded. -/
theorem gtest_partial_results_kept :
    GTest_doParse partialGtestReport partialGtestIndex =
      ([("a.cpp", ⟨some "a.cpp", [⟨"S.t1", "1", none⟩]⟩)],
        [parseDiag "g.xml" "ValueError: could not convert string to float: abc"])
    ∧ (GTest_doParse partialGtestReport partialGtestIndex).1 ≠ [] := by
  have h : GTest_doParse partialGtestReport partialGtestIndex =
      ([("a.cpp", ⟨some "a.cpp", [⟨"S.t1", "1", none⟩]⟩)],
        [parseDiag "g.xml" "ValueError: could not convert string to float: abc"]) := rfl
  refine ⟨h, ?_⟩
  rw [h]
  exact List.cons_ne_nil _ _

/-- C3 (amended): a report file whose XML fails to parse contributes nothing
(with a diagnostic); when an exception is raised while iterating test cases,
a diagnostic is emitted and the file is skipped from that point on, but the
test cases already added before the exception are kept (plus possibly the
just-created empty group of the failing test case). -/
theorem gtest_file_skip_behavior :
    (∀ (f : ReportFile) (idx : SrcIndex) (e : String), f.content = .error e →
      GTest_doParse f idx = ([], [parseDiag f.path e]))
    ∧ (∀ (f : ReportFile) (idx : SrcIndex) (root : XElem)
        (A B : List (Option String × XElem)) (sn : Option String) (tc : XElem)
        (fp e : String),
        f.content = .ok root →
        gtestCasePairs root = A ++ (sn, tc) :: B →
        (gtestAux idx A [] []).2.2 = none →
        pyDictFind? idx (gtestName sn tc) = some fp →
        pyDurStr (tc.get "time") = .error e →
        GTest_doParse f idx =
          (gtestEnsure (gtestAux idx A [] []).1 fp,
            (gtestAux idx A [] []).2.1 ++ [parseDiag f.path e])) := by
  constructor
  · intro f idx e he
    unfold GTest_doParse
    rw [he]
  · intro f idx root A B sn tc fp e hc hp hA hl hf
    obtain ⟨pth, content⟩ := f
    simp only at hc
    subst hc
    rcases hr : gtestAux idx A [] [] with ⟨m, ds, err⟩
    rw [hr] at hA
    simp only at hA
    subst hA
    have h1 : gtestAux idx (gtestCasePairs root) [] [] = (gtestEnsure m fp, ds, some e) := by
      rw [hp, gtestAux_append, hr]
      show gtestAux idx ((sn, tc) :: B) m ds = _
      rw [gtestAux_cons, hl, hf]
    show (match gtestAux idx (gtestCasePairs root) [] [] with
      | (d, diags, none) => (d, diags)
      | (d, diags, some err2) => (d, diags ++ [parseDiag pth err2])) =
      (gtestEnsure m fp, ds ++ [parseDiag pth e])
    rw [h1]

/-- Witness for the amended C3: the malformed file contributes nothing, and
the partially-failing report keeps its first test case. -/
theorem gtest_file_skip_behavior_witness :
    GTest_doParse ⟨"m.xml", .error "boom"⟩ [] = ([], [parseDiag "m.xml" "boom"])
    ∧ GTest_doParse partialGtestReport partialGtestIndex =
        (gtestEnsure (gtestAux partialGtestIndex
            [(some "S", ⟨"testcase", [("name", "t1"), ("time", "0.001")], none, []⟩)]
            [] []).1 "a.cpp",
          (gtestAux partialGtestIndex
            [(some "S", ⟨"testcase", [("name", "t1"), ("time", "0.001")], none, []⟩)]
            [] []).2.1
            ++ [parseDiag "g.xml" "ValueError: could not convert string to float: abc"]) := by
  constructor
  · exact gtest_file_skip_behavior.1 _ _ _ rfl
  · exact gtest_file_skip_behavior.2 _ partialGtestIndex _
      [(some "S", ⟨"testcase", [("name", "t1"), ("time", "0.001")], none, []⟩)] []
      (some "S") ⟨"testcase", [("name", "t2"), ("time", "abc")], none, []⟩ "a.cpp" _
      rfl rfl rfl rfl rfl

/-! ## C4: test cases missing from the source index -/

theorem noName_nil (n : String) : NoName n ([] : GDict) := by
  intro k g h
  simp [pyDictFind?] at h

theorem noName_gtestEnsure (n : String) (acc : GDict) (fp : String) (h : NoName n acc) :
    NoName n (gtestEnsure acc fp) := by
  intro k g hk c hc
  unfold gtestEnsure at hk
  split at hk
  · exact h k g hk c hc
  · by_cases hkfp : k = fp
    · subst hkfp
      rw [pyDictFind?_set_self] at hk
      injection hk with hg
      rw [← hg] at hc
      simp at hc
    · rw [pyDictFind?_set_ne _ _ _ _ hkfp] at hk
      exact h k g hk c hc

theorem noName_addCase (n : String) (acc : GDict) (fp : String) (c0 : TestCase)
    (hc0 : c0.name ≠ n) (h : NoName n acc) :
    NoName n (pyDictModify acc fp (fun g => g.add_test_case c0)) := by
  intro k g hk c hc
  rw [pyDictFind?_modify] at hk
  by_cases hkfp : k = fp
  · rw [if_pos hkfp] at hk
    cases hfind : pyDictFind? acc k with
    | none => rw [hfind] at hk; cases hk
    | some g0 =>
      rw [hfind] at hk
      injection hk with hg
      rw [← hg] at hc
      simp only [SonarTestExcution.add_test_case, List.mem_append] at hc
      rcases hc with hmem | hmem
      · exact h k g0 hfind c hmem
      · simp at hmem
        rw [hmem]
        exact hc0
  · rw [if_neg hkfp] at hk
    exact h k g hk c hc

/-- If `n` is not in the source index, the testcase loop never adds a test
case named `n` to any group. -/
theorem noName_gtestAux (idx : SrcIndex) (n : String) (hn : pyDictFind? idx n = none)
    (pairs : List (Option String × XElem)) (acc : GDict) (diags : List String)
    (hacc : NoName n acc) : NoName n (gtestAux idx pairs acc diags).1 := by
  induction pairs generalizing acc diags with
  | nil => exact hacc
  | cons p rest ih =>
    obtain ⟨sn, tc⟩ := p
    rw [gtestAux_cons]
    cases hl : pyDictFind? idx (gtestName sn tc) with
    | some fp =>
      have hne : gtestName sn tc ≠ n := by
        intro hh
        rw [hh, hn] at hl
        cases hl
      cases hf : pyDurStr (tc.get "time") with
      | error e => exact noName_gtestEnsure n acc fp hacc
      | ok ds =>
        exact ih _ _
          (noName_addCase n (gtestEnsure acc fp) fp
            ⟨gtestName sn tc, ds, doParseMsg tc⟩ hne
            (noName_gtestEnsure n acc fp hacc))
    | none => exact ih _ _ hacc

theorem GTest_doParse_fst (f : ReportFile) (idx : SrcIndex) :
    (GTest_doParse f idx).1 =
      match f.content with
      | .error _ => []
      | .ok root => (gtestAux idx (gtestCasePairs root) [] []).1 := by
  obtain ⟨pth, content⟩ := f
  cases content with
  | error e => rfl
  | ok root =>
    show (match gtestAux idx (gtestCasePairs root) [] [] with
      | (d, diags, none) => (d, diags)
      | (d, diags, some err2) => (d, diags ++ [parseDiag pth err2])).1 =
      (gtestAux idx (gtestCasePairs root) [] []).1
    rcases h : gtestAux idx (gtestCasePairs root) [] [] with ⟨d, ds, err⟩
    cases err <;> rfl

/-- C4: a Google Test test case whose qualified name has no entry in the
source index is absent from all output: (a) no group the parser returns ever
contains a test case with that name; (b) removing such a testcase from the
report leaves the parsed dict, and whether an exception escapes, exactly
unchanged — the other test cases are unaffected and the dropped case is not
grouped under any fallback key; (c) the skip diagnostic for it is printed,
provided no exception escaped earlier in the report. -/
theorem gtest_unindexed_case_dropped (idx : SrcIndex) (n : String)
    (hn : pyDictFind? idx n = none) :
    (∀ (f : ReportFile) (k : String) (g : SonarTestExcution) (c : TestCase),
        pyDictFind? (GTest_doParse f idx).1 k = some g → c ∈ g.test_cases → c.name ≠ n)
    ∧ (∀ (A B : List (Option String × XElem)) (sn : Option String) (tc : XElem)
        (acc : GDict) (diags : List String), gtestName sn tc = n →
        (gtestAux idx (A ++ (sn, tc) :: B) acc diags).1 =
          (gtestAux idx (A ++ B) acc diags).1
        ∧ (gtestAux idx (A ++ (sn, tc) :: B) acc diags).2.2 =
          (gtestAux idx (A ++ B) acc diags).2.2)
    ∧ (∀ (f : ReportFile) (root : XElem) (A B : List (Option String × XElem))
        (sn : Option String) (tc : XElem),
        f.content = .ok root →
        gtestCasePairs root = A ++ (sn, tc) :: B →
        gtestName sn tc = n →
        (gtestAux idx A [] []).2.2 = none →
        skipDiag n ∈ (GTest_doParse f idx).2) := by
  refine ⟨?_, ?_, ?_⟩
  · intro f k g c hfind hc
    rw [GTest_doParse_fst] at hfind
    cases hcontent : f.content with
    | error e =>
      rw [hcontent] at hfind
      simp [pyDictFind?] at hfind
    | ok root =>
      rw [hcontent] at hfind
      exact noName_gtestAux idx n hn _ [] [] (noName_nil n) k g hfind c hc
  · intro A B sn tc acc diags hname
    induction A generalizing acc diags with
    | nil =>
      rw [List.nil_append, List.nil_append, gtestAux_cons, hname, hn]
      constructor
      · rw [gtestAux_diags idx B acc (diags ++ [skipDiag n]), gtestAux_diags idx B acc diags]
      · rw [gtestAux_diags idx B acc (diags ++ [skipDiag n]), gtestAux_diags idx B acc diags]
    | cons p rest ih =>
      obtain ⟨sn2, tc2⟩ := p
      rw [List.cons_append, List.cons_append, gtestAux_cons, gtestAux_cons]
      cases hl : pyDictFind? idx (gtestName sn2 tc2) with
      | some fp =>
        cases hf : pyDurStr (tc2.get "time") with
        | error e => exact ⟨rfl, rfl⟩
        | ok ds => exact ih _ _
      | none => exact ih _ _
  · intro f root A B sn tc hc hp hname hA
    obtain ⟨pth, content⟩ := f
    simp only at hc
    subst hc
    rcases hr : gtestAux idx A [] [] with ⟨m, ds, err⟩
    rw [hr] at hA
    simp only at hA
    subst hA
    have h1 : gtestAux idx (gtestCasePairs root) [] [] =
        ((gtestAux idx B m []).1, (ds ++ [skipDiag n]) ++ (gtestAux idx B m []).2.1,
          (gtestAux idx B m []).2.2) := by
      rw [hp, gtestAux_append, hr]
      show gtestAux idx ((sn, tc) :: B) m ds = _
      rw [gtestAux_cons, hname, hn]
      exact gtestAux_diags idx B m (ds ++ [skipDiag n])
    show skipDiag n ∈ (match gtestAux idx (gtestCasePairs root) [] [] with
      | (d, diags, none) => (d, diags)
      | (d, diags, some err2) => (d, diags ++ [parseDiag pth err2])).2
    rw [h1]
    cases he : (gtestAux idx B m []).2.2 with
    | none => simp
    | some e2 => simp

/-- Witness for C4: in a report declaring `S.t1` and `S.t2` against an index
that only knows `S.t1`, the skip diagnostic for `S.t2` is printed. -/
theorem gtest_unindexed_case_dropped_witness :
    skipDiag "S.t2" ∈ (GTest_doParse droppedCaseReport droppedCaseIndex).2 :=
  (gtest_unindexed_case_dropped droppedCaseIndex "S.t2" rfl).2.2
    droppedCaseReport _
    [(some "S", ⟨"testcase", [("name", "t1"), ("time", "0.002")], none, []⟩)] []
    (some "S") ⟨"testcase", [("name", "t2"), ("time", "0.003")], none, []⟩
    rfl rfl rfl rfl

/-! ## C8: source index construction -/

theorem srcLineStep_find (fp : String) (m : SrcIndex) (line : String) (k : String) :
    pyDictFind? (srcLineStep fp m line) k =
      if keyOfLine line = some k then some fp else pyDictFind? m k := by
  unfold srcLineStep keyOfLine
  cases h : gtestSearch line.data with
  | none => simp
  | some g =>
    rw [show Option.map (fun g : String × String => pyStrip g.1 ++ "." ++ pyStrip g.2) (some g)
      = some (pyStrip g.1 ++ "." ++ pyStrip g.2) from rfl]
    by_cases hk : pyStrip g.1 ++ "." ++ pyStrip g.2 = k
    · rw [if_pos (by rw [hk])]
      show pyDictFind? (pyDictSet m (pyStrip g.1 ++ "." ++ pyStrip g.2) fp) k = some fp
      rw [hk, pyDictFind?_set_self]
    · rw [if_neg (by simpa using hk)]
      show pyDictFind? (pyDictSet m (pyStrip g.1 ++ "." ++ pyStrip g.2) fp) k =
        pyDictFind? m k
      rw [pyDictFind?_set_ne _ _ _ _ (fun hh => hk hh.symm)]

theorem srcLines_find_of_none (fp : String) (lines : List String) (m : SrcIndex) (k : String)
    (h : ∀ l ∈ lines, keyOfLine l ≠ some k) :
    pyDictFind? (lines.foldl (srcLineStep fp) m) k = pyDictFind? m k := by
  induction lines generalizing m with
  | nil => rfl
  | cons l rest ih =>
    rw [List.foldl_cons, ih _ (fun x hx => h x (List.mem_cons_of_mem _ hx)),
      srcLineStep_find, if_neg (h l (List.mem_cons_self _ _))]

theorem srcLines_find_of_mem (fp : String) (lines : List String) (m : SrcIndex) (k : String)
    (h : ∃ l ∈ lines, keyOfLine l = some k) :
    pyDictFind? (lines.foldl (srcLineStep fp) m) k = some fp := by
  induction lines generalizing m with
  | nil => simp at h
  | cons l rest ih =>
    rw [List.foldl_cons]
    by_cases hrest : ∃ x ∈ rest, keyOfLine x = some k
    · exact ih _ hrest
    · have hl : keyOfLine l = some k := by
        rcases h with ⟨x, hx, hxk⟩
        rcases List.mem_cons.mp hx with rfl | hx2
        · exact hxk
        · exact absurd ⟨x, hx2, hxk⟩ hrest
      push_neg at hrest
      rw [srcLines_find_of_none fp rest _ k hrest, srcLineStep_find, if_pos hl]

theorem srcFiles_find_of_none (fs : List SrcFile) (m : SrcIndex) (k : String)
    (h : ∀ sf ∈ fs, ∀ l ∈ sf.lines, keyOfLine l ≠ some k) :
    pyDictFind? (fs.foldl srcFileStep m) k = pyDictFind? m k := by
  induction fs generalizing m with
  | nil => rfl
  | cons sf rest ih =>
    rw [List.foldl_cons, ih _ (fun x hx => h x (List.mem_cons_of_mem _ hx))]
    exact srcLines_find_of_none _ _ _ _ (h sf (List.mem_cons_self _ _))

/-- C8: in the source index, when a file `f` has a line matched by the test
macro regex with groups `g1`, `g2`, and no file scanned after `f` produces
the key again, the index maps the key — the two stripped groups joined by a
dot — to `f`'s path.  In particular, with `fs2` containing producers of `k`
this gives last-wins overwrite semantics in walk order, and for a key matched
in exactly one file it gives that file's path. -/
theorem src_index_last_wins (fs1 : List SrcFile) (f : SrcFile) (fs2 : List SrcFile)
    (g1 g2 k : String)
    (hk : k = pyStrip g1 ++ "." ++ pyStrip g2)
    (hf : ∃ l ∈ f.lines, gtestSearch l.data = some (g1, g2))
    (h2 : ∀ sf ∈ fs2, ∀ l ∈ sf.lines, keyOfLine l ≠ some k) :
    pyDictFind? (doParseSrcFolder (fs1 ++ f :: fs2)) k = some f.path := by
  unfold doParseSrcFolder
  rw [List.foldl_append, List.foldl_cons, srcFiles_find_of_none fs2 _ k h2]
  apply srcLines_find_of_mem
  rcases hf with ⟨l, hl, hsearch⟩
  refine ⟨l, hl, ?_⟩
  unfold keyOfLine
  rw [hsearch, hk]
  rfl

/-- Witness for C8: `a.cpp` and `b.cpp` both declare `S.t1` (the latter with
extra whitespace inside the macro); scanned in that order, the index maps
`S.t1` to `b.cpp`. -/
theorem src_index_last_wins_witness :
    pyDictFind? (doParseSrcFolder [srcFileA, srcFileB, srcFileC]) "S.t1" = some "b.cpp" :=
  src_index_last_wins [srcFileA] srcFileB [srcFileC] " S " " t1 " "S.t1" (by decide)
    ⟨"  TEST( S , t1 )", by decide, by decide⟩ (by decide)

/-! ## C5: JUnit testcase conversion -/

theorem junitAux_cons (tc : XElem) (rest : List XElem) (acc : JDict) :
    junitAux (tc :: rest) acc =
      match pyDurStr (tc.get "time") with
      | .error e => (junitEnsure acc (tc.get "file"), some e)
      | .ok ds =>
        junitAux rest
          (pyDictModify (junitEnsure acc (tc.get "file")) (tc.get "file")
            (fun g => g.add_test_case ⟨junitTestcaseName tc, ds, doParseMsg tc⟩)) := rfl

theorem find_junitEnsure (acc : JDict) (key k : Option String) :
    pyDictFind? (junitEnsure acc key) k =
      if k = key then some ((pyDictFind? acc key).getD ⟨key, []⟩)
      else pyDictFind? acc k := by
  unfold junitEnsure
  by_cases hk : k = key
  · subst hk
    cases h : pyDictFind? acc k with
    | some g => simp [h]
    | none => simp [h, pyDictFind?_set_self]
  · rw [if_neg hk]
    cases h : pyDictFind? acc key with
    | some g => simp [h]
    | none => simp [h, pyDictFind?_set_ne _ _ _ _ hk]

/-- What the JUnit testcase loop computes when every duration expression
evaluates without an exception: none escapes, and each key's group holds
exactly the converted testcase elements carrying that `file` attribute, in
document order, appended after whatever the starting dict already held. -/
theorem junitAux_characterization (cases : List XElem)
    (hok : ∀ tc ∈ cases, ∃ s, pyDurStr (tc.get "time") = .ok s) (acc : JDict)
    (k : Option String) :
    (junitAux cases acc).2 = none
    ∧ pyDictFind? (junitAux cases acc).1 k =
      (match pyDictFind? acc k with
       | some g => some ⟨g.file_path, g.test_cases ++
           (cases.filter (fun tc => tc.get "file" == k)).map junitMkCase⟩
       | none =>
         if (cases.filter (fun tc => tc.get "file" == k)).isEmpty then none
         else some ⟨k, (cases.filter (fun tc => tc.get "file" == k)).map junitMkCase⟩) := by
  induction cases generalizing acc with
  | nil =>
    refine ⟨rfl, ?_⟩
    cases h : pyDictFind? acc k with
    | some g => simp [junitAux, h]
    | none => simp [junitAux, h]
  | cons tc rest ih =>
    obtain ⟨ds, ht⟩ := hok tc (List.mem_cons_self _ _)
    have hok2 : ∀ x ∈ rest, ∃ u, pyDurStr (x.get "time") = .ok u :=
      fun x hx => hok x (List.mem_cons_of_mem _ hx)
    have hmk : (⟨junitTestcaseName tc, ds, doParseMsg tc⟩ : TestCase) =
        junitMkCase tc := by
      unfold junitMkCase
      rw [ht]
    rw [junitAux_cons, ht]
    obtain ⟨ih1, ih2⟩ := ih hok2
      (pyDictModify (junitEnsure acc (tc.get "file")) (tc.get "file")
        (fun g => g.add_test_case ⟨junitTestcaseName tc, ds, doParseMsg tc⟩))
    refine ⟨ih1, ?_⟩
    rw [ih2, pyDictFind?_modify]
    by_cases hkk : tc.get "file" = k
    · subst hkk
      rw [if_pos rfl, find_junitEnsure, if_pos rfl]
      cases h : pyDictFind? acc (tc.get "file") with
      | some g =>
        simp [hmk, SonarTestExcution.add_test_case, List.filter_cons]
      | none =>
        simp [hmk, SonarTestExcution.add_test_case, List.filter_cons]
    · rw [if_neg (fun hh => hkk hh.symm), find_junitEnsure,
        if_neg (fun hh => hkk hh.symm)]
      have hpred : (tc.get "file" == k) = false := by simpa using hkk
      simp [List.filter_cons, hpred]

/-- C5: counterexample to the claim as stated.  At `time="1.015"` the
program's duration — `int(float("1.015") * 1000)` evaluated in binary64
arithmetic — is `1014`, while `floor(1.015 * 1000) = 1015`: the double
nearest to 1.015 lies just below it, so the truncated product falls one
short of the exact floor. -/
theorem junit_duration_not_exact_floor :
    JUnit_doParse ⟨"r.xml", .ok floorGapRoot⟩ =
      ([(some "foo.cpp", ⟨some "foo.cpp", [⟨"Foo.t1", "1014", none⟩]⟩)], [])
    ∧ ⌊(1015 : ℚ) / 1000 * 1000⌋ = 1015
    ∧ ("1014" : String) ≠ "1015" := by
  refine ⟨rfl, ?_, by decide⟩
  norm_num

/-- C5 (amended): for a valid JUnit report (document element `testsuite`,
every duration expression evaluating without an exception), (a) `doParse`
succeeds with no diagnostics; (b) each file key's group holds exactly the
testcase elements carrying that `file` attribute, converted in order — so
each testcase with a `file` attribute yields exactly one entry, grouped
under that value; (c) a testcase with `classname=C` and `name=N` converts
to the entry `C.N` whose duration is the binary64 evaluation of
`int(float(t) * 1000)` — not in general the exact `floor(t * 1000)`;
(d) with no failure/error/skipped child there is no message; (e) the
serializer emits a message-free `testCase` element for such an entry; and
(f) at the §8 scenario time `0.125`, which is exactly representable, the
duration does equal the exact `floor(0.125 * 1000) = 125`. -/
theorem junit_testcase_conversion (p : String) (root : XElem)
    (_hroot : root.tag = "testsuite")
    (hok : ∀ tc ∈ xpathRootCases root, ∃ s, pyDurStr (tc.get "time") = .ok s) :
    JUnit_doParse ⟨p, .ok root⟩ = ((junitAux (xpathRootCases root) []).1, [])
    ∧ (∀ k : Option String,
        pyDictFind? (junitAux (xpathRootCases root) []).1 k =
          if ((xpathRootCases root).filter (fun tc => tc.get "file" == k)).isEmpty then none
          else some ⟨k, ((xpathRootCases root).filter
            (fun tc => tc.get "file" == k)).map junitMkCase⟩)
    ∧ (∀ (tc : XElem) (F C N ds : String),
        tc.get "file" = some F → tc.get "classname" = some C → tc.get "name" = some N →
        pyDurStr (tc.get "time") = .ok ds →
        junitMkCase tc = ⟨C ++ "." ++ N, ds, doParseMsg tc⟩)
    ∧ (∀ tc : XElem, (∀ c ∈ tc.children, test_msg_tag_map c.tag = none) →
        doParseMsg tc = none)
    ∧ (∀ nm dur : String, serializeTestCaseElem ⟨nm, dur, none⟩ =
        ⟨"testCase", [("name", nm), ("duration", dur)], none, []⟩)
    ∧ (pyDurStr (some "0.125") = .ok "125" ∧ ⌊(125 : ℚ) / 1000 * 1000⌋ = 125) := by
  refine ⟨?_, ?_, ?_, ?_, ?_, rfl, ?_⟩
  · have h := (junitAux_characterization (xpathRootCases root) hok [] none).1
    show (match junitAux (xpathRootCases root) [] with
      | (d, none) => (d, [])
      | (d, some e) => (d, [parseDiag p e])) = ((junitAux (xpathRootCases root) []).1, [])
    rcases hr : junitAux (xpathRootCases root) [] with ⟨d, err⟩
    rw [hr] at h
    simp only at h
    subst h
    rfl
  · intro k
    have h := (junitAux_characterization (xpathRootCases root) hok [] k).2
    rw [h]
    rfl
  · intro tc F C N ds hF hC hN ht
    have h1 : junitMkCase tc = ⟨junitTestcaseName tc, ds, doParseMsg tc⟩ := by
      unfold junitMkCase
      rw [ht]
    rw [h1]
    unfold junitTestcaseName
    rw [hC, hN]
    rfl
  · intro tc hc
    unfold doParseMsg
    cases h : tc.children with
    | nil => rfl
    | cons c cs =>
      show (match test_msg_tag_map c.tag with
        | some t => some (TestMsg.init t (c.get "message") c.text)
        | none => none) = none
      rw [hc c (by rw [h]; exact List.mem_cons_self _ _)]
  · intro nm dur
    rfl
  · norm_num

/-- Witness for the amended C5 at the §8 scenario report (`Foo.t1`,
`foo.cpp`, `time="0.125"`): one entry under `foo.cpp`, named `Foo.t1`, with
duration `"125"`. -/
theorem junit_testcase_conversion_witness :
    pyDictFind? (junitAux (xpathRootCases scenarioJUnitRoot) []).1 (some "foo.cpp") =
      some ⟨some "foo.cpp", [junitMkCase scenarioJUnitCase]⟩
    ∧ junitMkCase scenarioJUnitCase =
        ⟨"Foo" ++ "." ++ "t1", "125", doParseMsg scenarioJUnitCase⟩ := by
  have hok : ∀ tc ∈ xpathRootCases scenarioJUnitRoot,
      ∃ s, pyDurStr (tc.get "time") = .ok s := by
    intro tc htc
    have he : xpathRootCases scenarioJUnitRoot = [scenarioJUnitCase] := rfl
    rw [he] at htc
    simp only [List.mem_singleton] at htc
    subst htc
    exact ⟨"125", rfl⟩
  have h := junit_testcase_conversion "r.xml" scenarioJUnitRoot rfl hok
  constructor
  · have h2 := h.2.1 (some "foo.cpp")
    rw [h2, if_neg (by decide)]
    rfl
  · exact h.2.2.1 scenarioJUnitCase "foo.cpp" "Foo" "t1" "125" rfl rfl rfl rfl

/-! ## C6: aggregation across report files -/

theorem aggStep_nil (agg : GDict) : aggStep agg [] = agg := rfl

theorem aggStep_cons (agg : GDict) (p : String × SonarTestExcution) (rest : GDict) :
    aggStep agg (p :: rest) =
      aggStep (pyDictModify (gtestEnsure agg p.1) p.1
        (fun g => g.add_test_cases p.2.test_cases)) rest := rfl

theorem find_gtestEnsure (acc : GDict) (fp : String) (k : String) :
    pyDictFind? (gtestEnsure acc fp) k =
      if k = fp then some ((pyDictFind? acc fp).getD ⟨some fp, []⟩)
      else pyDictFind? acc k := by
  unfold gtestEnsure
  by_cases hk : k = fp
  · subst hk
    cases h : pyDictFind? acc k with
    | some g => simp [h]
    | none => simp [h, pyDictFind?_set_self]
  · rw [if_neg hk]
    cases h : pyDictFind? acc fp with
    | some g => simp [h]
    | none => simp [h, pyDictFind?_set_ne _ _ _ _ hk]

/-- Merging one parsed file's dict into the run-wide dict: groups already
present are appended to, new keys get a fresh group holding exactly that
file's cases, and nothing else changes. -/
theorem find_aggStep (d : GDict) (agg : GDict) (k : String) (hd : (dictKeys d).Nodup) :
    pyDictFind? (aggStep agg d) k =
      match pyDictFind? agg k, pyDictFind? d k with
      | some g, some h => some ⟨g.file_path, g.test_cases ++ h.test_cases⟩
      | some g, none => some g
      | none, some h => some ⟨some k, h.test_cases⟩
      | none, none => none := by
  induction d generalizing agg with
  | nil =>
    cases h : pyDictFind? agg k <;> simp [aggStep, pyDictFind?, h]
  | cons p rest ih =>
    obtain ⟨k0, g0⟩ := p
    have hdk : (k0 :: dictKeys rest).Nodup := hd
    have hk0 : k0 ∉ dictKeys rest := (List.nodup_cons.mp hdk).1
    have hdrest : (dictKeys rest).Nodup := (List.nodup_cons.mp hdk).2
    rw [aggStep_cons, ih _ hdrest, pyDictFind?_modify]
    by_cases hkk : k = k0
    · subst hkk
      rw [if_pos rfl, find_gtestEnsure, if_pos rfl,
        pyDictFind?_none_of_not_mem rest k hk0,
        show pyDictFind? ((k, g0) :: rest) k = some g0 from by
          simp [pyDictFind?]]
      cases h : pyDictFind? agg k with
      | some g => simp [SonarTestExcution.add_test_cases]
      | none => simp [SonarTestExcution.add_test_cases]
    · rw [if_neg hkk, find_gtestEnsure, if_neg hkk,
        show pyDictFind? ((k0, g0) :: rest) k = pyDictFind? rest k from by
          simp only [pyDictFind?]
          rw [if_neg (fun hh : k0 = k => hkk hh.symm)]]

theorem GWf_gtestEnsure (m : GDict) (fp : String) (h1 : (dictKeys m).Nodup)
    (h2 : ∀ p ∈ m, p.2.file_path = some p.1) :
    (dictKeys (gtestEnsure m fp)).Nodup
    ∧ ∀ p ∈ gtestEnsure m fp, p.2.file_path = some p.1 := by
  unfold gtestEnsure
  split
  · exact ⟨h1, h2⟩
  · rename_i hcond
    have h : pyDictFind? m fp = none := by
      cases hff : pyDictFind? m fp
      · rfl
      · rw [hff] at hcond
        simp at hcond
    rw [pyDictSet_of_absent _ _ _ h]
    constructor
    · have hkeys : dictKeys (m ++ [(fp, (⟨some fp, []⟩ : SonarTestExcution))]) =
          dictKeys m ++ [fp] := by
        simp [dictKeys]
      rw [hkeys]
      refine List.Nodup.append h1 (List.nodup_singleton fp) (fun a ha hb => ?_)
      simp only [List.mem_singleton] at hb
      subst hb
      have hs := (pyDictFind?_isSome_iff_mem m a).mpr ha
      rw [h] at hs
      simp at hs
    · intro p hp
      rcases List.mem_append.mp hp with hm | hm
      · exact h2 p hm
      · simp only [List.mem_singleton] at hm
        subst hm
        rfl

theorem GWf_modify (m : GDict) (k : String) (f : SonarTestExcution → SonarTestExcution)
    (hf : ∀ g, (f g).file_path = g.file_path)
    (h1 : (dictKeys m).Nodup) (h2 : ∀ p ∈ m, p.2.file_path = some p.1) :
    (dictKeys (pyDictModify m k f)).Nodup
    ∧ ∀ p ∈ pyDictModify m k f, p.2.file_path = some p.1 := by
  refine ⟨by rw [dictKeys_modify]; exact h1, ?_⟩
  intro p hp
  unfold pyDictModify at hp
  rcases List.mem_map.mp hp with ⟨q, hq, hpq⟩
  by_cases hqk : q.1 = k
  · rw [if_pos hqk] at hpq
    rw [← hpq]
    show (f q.2).file_path = some q.1
    rw [hf]
    exact h2 q hq
  · rw [if_neg hqk] at hpq
    rw [← hpq]
    exact h2 q hq

theorem GWf_gtestAux (idx : SrcIndex) (pairs : List (Option String × XElem)) (acc : GDict)
    (diags : List String) (h1 : (dictKeys acc).Nodup)
    (h2 : ∀ p ∈ acc, p.2.file_path = some p.1) :
    (dictKeys (gtestAux idx pairs acc diags).1).Nodup
    ∧ ∀ p ∈ (gtestAux idx pairs acc diags).1, p.2.file_path = some p.1 := by
  induction pairs generalizing acc diags with
  | nil => exact ⟨h1, h2⟩
  | cons pr rest ih =>
    obtain ⟨sn, tc⟩ := pr
    rw [gtestAux_cons]
    cases hl : pyDictFind? idx (gtestName sn tc) with
    | some fp =>
      obtain ⟨e1, e2⟩ := GWf_gtestEnsure acc fp h1 h2
      cases hf : pyDurStr (tc.get "time") with
      | error e => exact ⟨e1, e2⟩
      | ok ds =>
        obtain ⟨m1, m2⟩ := GWf_modify (gtestEnsure acc fp) fp
          (fun g => g.add_test_case ⟨gtestName sn tc, ds, doParseMsg tc⟩)
          (fun g => rfl) e1 e2
        exact ih _ _ m1 m2
    | none => exact ih _ _ h1 h2

theorem GWf_GTest_doParse (f : ReportFile) (idx : SrcIndex) :
    (dictKeys (GTest_doParse f idx).1).Nodup
    ∧ ∀ p ∈ (GTest_doParse f idx).1, p.2.file_path = some p.1 := by
  rw [GTest_doParse_fst]
  cases h : f.content with
  | error e => exact ⟨List.nodup_nil, fun p hp => absurd hp (List.not_mem_nil p)⟩
  | ok root =>
    exact GWf_gtestAux idx _ [] [] List.nodup_nil (fun p hp => absurd hp (List.not_mem_nil p))

theorem GWf_aggStep (agg d : GDict) (h1 : (dictKeys agg).Nodup)
    (h2 : ∀ p ∈ agg, p.2.file_path = some p.1) :
    (dictKeys (aggStep agg d)).Nodup ∧ ∀ p ∈ aggStep agg d, p.2.file_path = some p.1 := by
  induction d generalizing agg with
  | nil => exact ⟨h1, h2⟩
  | cons p rest ih =>
    rw [aggStep_cons]
    obtain ⟨e1, e2⟩ := GWf_gtestEnsure agg p.1 h1 h2
    obtain ⟨m1, m2⟩ := GWf_modify (gtestEnsure agg p.1) p.1
      (fun g => g.add_test_cases p.2.test_cases) (fun g => rfl) e1 e2
    exact ih _ m1 m2

theorem GTest_aggregate_fst (idx : SrcIndex) (reports : List ReportFile) :
    (GTest_aggregate idx reports).1 =
      reports.foldl (fun a f => aggStep a (GTest_doParse f idx).1) [] := by
  suffices h : ∀ (rs : List ReportFile) (st : GDict × List String),
      (rs.foldl (fun st f =>
        let pr := GTest_doParse f idx
        (aggStep st.1 pr.1, st.2 ++ pr.2)) st).1
        = rs.foldl (fun a f => aggStep a (GTest_doParse f idx).1) st.1 from
    h reports ([], [])
  intro rs
  induction rs with
  | nil => intro st; rfl
  | cons f rest ih =>
    intro st
    rw [List.foldl_cons, List.foldl_cons, ih]

theorem GWf_aggregate (idx : SrcIndex) (reports : List ReportFile) :
    (dictKeys (GTest_aggregate idx reports).1).Nodup
    ∧ ∀ p ∈ (GTest_aggregate idx reports).1, p.2.file_path = some p.1 := by
  rw [GTest_aggregate_fst]
  suffices h : ∀ (rs : List ReportFile) (a : GDict), (dictKeys a).Nodup →
      (∀ p ∈ a, p.2.file_path = some p.1) →
      (dictKeys (rs.foldl (fun x f => aggStep x (GTest_doParse f idx).1) a)).Nodup
      ∧ ∀ p ∈ rs.foldl (fun x f => aggStep x (GTest_doParse f idx).1) a,
          p.2.file_path = some p.1 from
    h reports [] List.nodup_nil (fun p hp => absurd hp (List.not_mem_nil p))
  intro rs
  induction rs with
  | nil => intro a h1 h2; exact ⟨h1, h2⟩
  | cons f rest ih =>
    intro a h1 h2
    rw [List.foldl_cons]
    obtain ⟨s1, s2⟩ := GWf_aggStep a (GTest_doParse f idx).1 h1 h2
    exact ih _ s1 s2

theorem collectedCases_eq_nil (idx : SrcIndex) (l : List ReportFile) (k : String)
    (h : keyPresent idx l k = false) : collectedCases idx l k = [] := by
  induction l with
  | nil => rfl
  | cons f rest ih =>
    simp only [keyPresent, List.any_cons, Bool.or_eq_false_iff] at h
    obtain ⟨h1, h2⟩ := h
    have hf : pyDictFind? (GTest_doParse f idx).1 k = none := by
      cases hff : pyDictFind? (GTest_doParse f idx).1 k
      · rfl
      · rw [hff] at h1; simp at h1
    have hrest : collectedCases idx rest k = [] := ih h2
    have hstep : collectedCases idx (f :: rest) k =
        (match pyDictFind? (GTest_doParse f idx).1 k with
         | some g => g.test_cases
         | none => []) ++ collectedCases idx rest k := by
      simp [collectedCases]
    rw [hstep, hf, hrest]
    rfl

/-- The run-wide dict after aggregating all report files: a key is present
exactly when some file's parse produced it, and its group holds the
concatenation, in file order, of every file's cases for that key —
duplicates preserved. -/
theorem find_aggregate (idx : SrcIndex) (reports : List ReportFile) (k : String) :
    pyDictFind? (GTest_aggregate idx reports).1 k =
      if keyPresent idx reports k then some ⟨some k, collectedCases idx reports k⟩
      else none := by
  rw [GTest_aggregate_fst]
  induction reports using List.reverseRecOn with
  | nil => rfl
  | append_singleton l f ih =>
    rw [List.foldl_append, List.foldl_cons, List.foldl_nil,
      find_aggStep _ _ k (GWf_GTest_doParse f idx).1, ih]
    have hkp : keyPresent idx (l ++ [f]) k =
        (keyPresent idx l k || (pyDictFind? (GTest_doParse f idx).1 k).isSome) := by
      simp [keyPresent, List.any_append]
    have hcc : collectedCases idx (l ++ [f]) k =
        collectedCases idx l k ++
          (match pyDictFind? (GTest_doParse f idx).1 k with
           | some g => g.test_cases
           | none => []) := by
      simp [collectedCases, List.map_append, List.flatten_append]
    rw [hkp, hcc]
    cases hp : keyPresent idx l k with
    | true =>
      cases hf : pyDictFind? (GTest_doParse f idx).1 k with
      | some h => simp
      | none => simp
    | false =>
      have hnil := collectedCases_eq_nil idx l k hp
      cases hf : pyDictFind? (GTest_doParse f idx).1 k with
      | some h => simp [hnil]
      | none => simp

theorem find_aggStep_mono (agg d : GDict) (k : String) (g : SonarTestExcution)
    (h : pyDictFind? agg k = some g) :
    ∃ ext, pyDictFind? (aggStep agg d) k = some ⟨g.file_path, g.test_cases ++ ext⟩ := by
  induction d generalizing agg g with
  | nil =>
    refine ⟨[], ?_⟩
    rw [aggStep_nil, h]
    simp
  | cons p rest ih =>
    rw [aggStep_cons]
    by_cases hk : k = p.1
    · subst hk
      have hstep : pyDictFind? (pyDictModify (gtestEnsure agg p.1) p.1
          (fun g2 => g2.add_test_cases p.2.test_cases)) p.1 =
          some ⟨g.file_path, g.test_cases ++ p.2.test_cases⟩ := by
        rw [pyDictFind?_modify, if_pos rfl, find_gtestEnsure, if_pos rfl, h]
        rfl
      obtain ⟨ext, hext⟩ := ih _ _ hstep
      refine ⟨p.2.test_cases ++ ext, ?_⟩
      rw [hext]
      simp [List.append_assoc]
    · have hstep : pyDictFind? (pyDictModify (gtestEnsure agg p.1) p.1
          (fun g2 => g2.add_test_cases p.2.test_cases)) k = some g := by
        rw [pyDictFind?_modify, if_neg hk, find_gtestEnsure, if_neg hk, h]
      exact ih _ _ hstep

theorem find_foldl_aggStep_mono (idx : SrcIndex) (more : List ReportFile) (a : GDict)
    (k : String) (g : SonarTestExcution) (h : pyDictFind? a k = some g) :
    ∃ ext, pyDictFind? (more.foldl (fun x f => aggStep x (GTest_doParse f idx).1) a) k =
      some ⟨g.file_path, g.test_cases ++ ext⟩ := by
  induction more generalizing a g with
  | nil =>
    refine ⟨[], ?_⟩
    rw [List.foldl_nil, h]
    simp
  | cons f rest ih =>
    rw [List.foldl_cons]
    obtain ⟨e1, he1⟩ := find_aggStep_mono a (GTest_doParse f idx).1 k g h
    obtain ⟨e2, he2⟩ := ih _ _ he1
    refine ⟨e1 ++ e2, ?_⟩
    rw [he2]
    simp [List.append_assoc]

/-- C6: (a) the aggregated output has pairwise-distinct file paths — at most
one group per source file path; (b) each key's group holds the concatenation
of every report file's cases for that key, duplicates preserved, and a key
appears exactly when some file contributed it; (c) aggregating further
report files only ever appends to an existing group — a test case is never
re-attributed to a different group once added. -/
theorem gtest_aggregation_merge (srcFiles : List SrcFile) (reports : List ReportFile) :
    ((GTest_parse srcFiles reports).1.map (fun g => g.file_path)).Nodup
    ∧ (∀ k : String,
        pyDictFind? (GTest_aggregate (doParseSrcFolder srcFiles) reports).1 k =
          if keyPresent (doParseSrcFolder srcFiles) reports k
          then some ⟨some k, collectedCases (doParseSrcFolder srcFiles) reports k⟩
          else none)
    ∧ (∀ (more : List ReportFile) (k : String) (g : SonarTestExcution),
        pyDictFind? (GTest_aggregate (doParseSrcFolder srcFiles) reports).1 k = some g →
        ∃ ext, pyDictFind? (GTest_aggregate (doParseSrcFolder srcFiles)
          (reports ++ more)).1 k = some ⟨g.file_path, g.test_cases ++ ext⟩) := by
  refine ⟨?_, ?_, ?_⟩
  · obtain ⟨h1, h2⟩ := GWf_aggregate (doParseSrcFolder srcFiles) reports
    unfold GTest_parse
    simp only [List.map_map]
    have hcong : (GTest_aggregate (doParseSrcFolder srcFiles) reports).1.map
        ((fun g => g.file_path) ∘ (fun p => p.2)) =
        (GTest_aggregate (doParseSrcFolder srcFiles) reports).1.map (fun p => some p.1) := by
      apply List.map_congr_left
      intro p hp
      exact h2 p hp
    rw [hcong]
    have hmm : (GTest_aggregate (doParseSrcFolder srcFiles) reports).1.map
        (fun p => some p.1) =
        (dictKeys (GTest_aggregate (doParseSrcFolder srcFiles) reports).1).map some := by
      simp [dictKeys, List.map_map]
    rw [hmm]
    exact h1.map (Option.some_injective _)
  · intro k
    exact find_aggregate (doParseSrcFolder srcFiles) reports k
  · intro more k g hg
    have hsplit : (GTest_aggregate (doParseSrcFolder srcFiles) (reports ++ more)).1 =
        more.foldl (fun a f => aggStep a (GTest_doParse f (doParseSrcFolder srcFiles)).1)
          (GTest_aggregate (doParseSrcFolder srcFiles) reports).1 := by
      rw [GTest_aggregate_fst, GTest_aggregate_fst, List.foldl_append]
    rw [hsplit]
    exact find_foldl_aggStep_mono _ more _ k g hg

/-- Witness for C6: two report files both attributing `S.t1` to `a.cpp`
yield one group holding both entries. -/
theorem gtest_aggregation_merge_witness :
    pyDictFind? (GTest_aggregate (doParseSrcFolder [srcFileA]) [mergeReport1, mergeReport2]).1
      "a.cpp" =
      some ⟨some "a.cpp",
        collectedCases (doParseSrcFolder [srcFileA]) [mergeReport1, mergeReport2] "a.cpp"⟩ := by
  have h := (gtest_aggregation_merge [srcFileA] [mergeReport1, mergeReport2]).2.1 "a.cpp"
  rw [h, if_pos (by decide)]

/-- Witness for the amended C7 at a concrete element whose first child is a
`failure` element. -/
theorem doParseMsg_first_child_only_witness :
    doParseMsg ⟨"testcase", [], none, [⟨"failure", [("message", "m")], some "b", []⟩]⟩ =
      some (TestMsg.init .failure (some "m") (some "b")) := by
  have h := (doParseMsg_first_child_only
      ⟨"testcase", [], none, [⟨"failure", [("message", "m")], some "b", []⟩]⟩).2.2
    ⟨"failure", [("message", "m")], some "b", []⟩ [] .failure rfl rfl
  exact h

end SonarConv
